import Mathlib

/-!
Verification of the meshtastic-matrix-relay bridge (`src/main.py`).

The development shallowly embeds the relay's two message callbacks,
`on_meshtastic_message` and `on_room_message`, together with the helper
`truncate_message` and the provenance-prefix handling, as pure Lean
functions from a configuration, an environment and an incoming event to
the list of observable effects (scheduled chat sends, radio sends and
plugin handler invocations).  Strings are Lean `String`s (lists of
unicode scalar values, matching Python `str` for everything the relay
encodes), and the UTF-8 byte level is modelled explicitly as `List Nat`.
-/

/-! ## UTF-8 encoding and decoding

`truncate_message` in `src/main.py` is
`text.encode("utf-8")[:max_bytes].decode("utf-8", "ignore")`.
We model the byte string as `List Nat` (each entry `< 256`), the encoder
`charUtf8` producing the standard 1-4 byte encoding of a unicode scalar
value, and the decoder `utf8DecodeIgnore` as the byte-at-a-time state
machine that skips malformed sequences, matching the `"ignore"` error
handler of Python's UTF-8 decoder on the inputs reachable here
(prefixes of valid UTF-8). -/

/-- UTF-8 encoding of a single unicode scalar value (1 to 4 bytes). -/
def charUtf8 (c : Char) : List Nat :=
  let v := c.toNat
  if v < 0x80 then [v]
  else if v < 0x800 then [0xC0 + v / 64, 0x80 + v % 64]
  else if v < 0x10000 then [0xE0 + v / 4096, 0x80 + v / 64 % 64, 0x80 + v % 64]
  else [0xF0 + v / 262144, 0x80 + v / 4096 % 64, 0x80 + v / 64 % 64, 0x80 + v % 64]

/-- UTF-8 encoding of a string of unicode scalar values. -/
def utf8Encode (s : List Char) : List Nat :=
  (s.map charUtf8).flatten

/-- UTF-8 byte length of a string (what Python's `len(text.encode("utf-8"))` returns). -/
def utf8Len (s : String) : Nat :=
  (utf8Encode s.data).length

/-- Classification of a byte in lead position: either it immediately yields a
scalar value (ASCII), or it opens a multi-byte sequence
`(accumulator, continuation bytes still needed, minimal legal value)`,
or it is malformed in lead position and is skipped. -/
def classifyLead (b : Nat) : Option (Nat × Nat × Nat) × Option Nat :=
  if b < 0x80 then (none, some b)
  else if b < 0xC0 then (none, none)
  else if b < 0xE0 then (some (b - 0xC0, 1, 0x80), none)
  else if b < 0xF0 then (some (b - 0xE0, 2, 0x800), none)
  else if b < 0xF8 then (some (b - 0xF0, 3, 0x10000), none)
  else (none, none)

/-- Byte-at-a-time UTF-8 decoder with the `"ignore"` error handler: malformed
bytes and incomplete trailing sequences produce no output, decoding resumes
at the offending byte.  The state is `none` (expecting a lead byte) or
`some (acc, need, min)` mid-sequence. -/
def utf8DecodeIgnoreAux : Option (Nat × Nat × Nat) → List Nat → List Char
  | _, [] => []
  | none, b :: bs =>
    match classifyLead b with
    | (st, some v) => Char.ofNat v :: utf8DecodeIgnoreAux st bs
    | (st, none) => utf8DecodeIgnoreAux st bs
  | some (acc, need, mn), b :: bs =>
    if 0x80 ≤ b ∧ b < 0xC0 then
      let acc' := acc * 64 + (b - 0x80)
      if need = 1 then
        if mn ≤ acc' ∧ acc' < 0x110000 ∧ ¬(0xD800 ≤ acc' ∧ acc' < 0xE000) then
          Char.ofNat acc' :: utf8DecodeIgnoreAux none bs
        else
          utf8DecodeIgnoreAux none bs
      else
        utf8DecodeIgnoreAux (some (acc', need - 1, mn)) bs
    else
      match classifyLead b with
      | (st, some v) => Char.ofNat v :: utf8DecodeIgnoreAux st bs
      | (st, none) => utf8DecodeIgnoreAux st bs

/-- Model of `bytes.decode("utf-8", "ignore")`. -/
def utf8DecodeIgnore (bs : List Nat) : List Char :=
  utf8DecodeIgnoreAux none bs

/-- Model of `truncate_message` from `src/main.py`:
`text.encode("utf-8")[:max_bytes].decode("utf-8", "ignore")`.
The source's default for `max_bytes` is 227; call sites below pass it
explicitly. -/
def truncate_message (text : String) (max_bytes : Nat) : String :=
  ⟨utf8DecodeIgnore ((utf8Encode text.data).take max_bytes)⟩

/-- The longest prefix of a character list whose total UTF-8 byte length is
at most `n` bytes: what byte-level truncation keeps. -/
def takeFit : List Char → Nat → List Char
  | [], _ => []
  | c :: cs, n =>
    if (charUtf8 c).length ≤ n then c :: takeFit cs (n - (charUtf8 c).length) else []

/-! ## Data model

Mirrors of the configuration (`config.yaml` as consumed by `src/main.py`),
the Matrix chat event, the Meshtastic radio packet, and the observable
effects of the two callbacks.  External calls (the longname database,
`matrix_client.get_displayname`) are passed in as functions; plugin
handlers are represented by their only observable trait here, whether the
handler raises an exception (`true`) or returns normally (`false`). -/

/-- One entry of `matrix_rooms` in the configuration. -/
structure RoomMapping where
  id : String
  meshtastic_channel : Nat
deriving DecidableEq, Repr

/-- The parts of `relay_config` the two callbacks read. -/
structure RelayConfig where
  matrix_rooms : List RoomMapping
  meshnet_name : String
  broadcast_enabled : Bool
  bot_user_id : String
deriving Repr

/-- A Matrix room message event as seen by `on_room_message`: sender,
server timestamp, body, and the two optional provenance fields read from
`event.source["content"]`. -/
structure ChatEvent where
  sender : String
  server_timestamp : Int
  body : String
  meshtastic_longname : Option String
  meshtastic_meshnet : Option String
deriving Repr

/-- A Meshtastic packet as seen by `on_meshtastic_message`: `fromId`, the
optional `channel` key, the optional `decoded.text` payload and
`decoded.portnum`. -/
structure RadioPacket where
  fromId : String
  channel : Option Nat
  decoded_text : Option String
  portnum : String
deriving Repr

/-- The content dictionary built by `matrix_relay`:
`{msgtype, body, meshtastic_longname, meshtastic_meshnet}`. -/
structure MatrixContent where
  msgtype : String
  body : String
  meshtastic_longname : String
  meshtastic_meshnet : String
deriving DecidableEq, Repr

/-- Observable effects of `on_room_message`: an awaited plugin
`handle_room_message` invocation, or a `meshtastic_interface.sendText`. -/
inductive Effect where
  | pluginChat (formatted : String)
  | radioSend (text : String) (channelIndex : Nat)
deriving DecidableEq, Repr

/-- Observable effects of `on_meshtastic_message`: a scheduled plugin
`handle_meshtastic_message` coroutine, or a scheduled `matrix_relay` send. -/
inductive MEffect where
  | pluginRadio (formatted : String)
  | matrixSend (roomId : String) (content : MatrixContent)
deriving DecidableEq, Repr

/-- Environment of `on_room_message`: the Matrix display-name lookup
(`get_displayname(sender).displayname`) and the registered plugins
(`true` = the awaited handler raises). -/
structure ChatEnv where
  displayname : String → Option String
  plugins : List Bool

/-- Python truthiness of an optional string: `None` and `""` are falsy. -/
def truthyOpt (o : Option String) : Bool :=
  !(o.getD "" == "")

/-- Python's `a or b` for an optional string `a` and a string `b`. -/
def truthyOr (o : Option String) (dflt : String) : String :=
  if truthyOpt o then o.getD "" else dflt

/-- Python `s[:n]`: the first `n` code points. -/
def pySlice (s : String) (n : Nat) : String :=
  ⟨s.data.take n⟩

/-- Python `s.strip()`: remove leading and trailing whitespace. -/
def pyStrip (s : String) : String :=
  ⟨((s.data.dropWhile Char.isWhitespace).reverse.dropWhile Char.isWhitespace).reverse⟩

/-- Literal pattern match at the start of a string: `matchLit p s` returns
the remainder of `s` after `p` when `p` is a literal leading pattern of
`s`, and `none` otherwise.  This is what the anchored regex of the source
does at position 0 for a pattern without metacharacters. -/
def matchLit : List Char → List Char → Option (List Char)
  | [], rest => some rest
  | _ :: _, [] => none
  | p :: ps, c :: cs => if p = c then matchLit ps cs else none

/-- Model of `re.sub` with the anchored interpolated pattern from
`on_room_message`, for tags without regex metacharacters: the pattern is
anchored at the start of the string (no `re.M`), so it removes at most one
leading occurrence of `"[tag]: "` and leaves other text unchanged. -/
def stripDisplayTag (tag text : String) : String :=
  match matchLit ("[" ++ tag ++ "]: ").data text.data with
  | some rest => ⟨rest⟩
  | none => text

/-- Characters with a special meaning in Python regular expressions.  The
source interpolates the display tag into the pattern unescaped, so the
model `stripDisplayTag` is faithful exactly for tags avoiding these. -/
def regexSpecials : List Char :=
  ['.', '^', '$', '*', '+', '?', '(', ')', '[', ']', '\x7b', '\x7d', '\\', '|']

/-- A tag that contains no regex metacharacters, i.e. one the source's
interpolated pattern treats literally. -/
def regexLiteral (tag : String) : Bool :=
  tag.data.all (fun c => !(regexSpecials.contains c))

/-- The plugin loop of `on_room_message`:
`for plugin in plugins: await plugin.handle_room_message(room, event, full_message)`.
Each handler is awaited directly with no exception handling, so a raising
handler aborts the loop; the Boolean records whether an exception escaped. -/
def dispatchChat : List Bool → String → List Effect × Bool
  | [], _ => ([], false)
  | raises :: rest, msg =>
    if raises then ([Effect.pluginChat msg], true)
    else
      let r := dispatchChat rest msg
      (Effect.pluginChat msg :: r.1, r.2)

/-- Channel resolution at the top of `on_meshtastic_message`: use the
packet's `channel` key when present, else channel 0 for
`TEXT_MESSAGE_APP`, else give up (`return`). -/
def packetChannel (packet : RadioPacket) : Option Nat :=
  match packet.channel with
  | some ch => some ch
  | none => if packet.portnum == "TEXT_MESSAGE_APP" then some 0 else none

/-- Model of `on_meshtastic_message` from `src/main.py`, as the list of effects it
schedules.  Both the plugin coroutines and the `matrix_relay` sends go
through `asyncio.run_coroutine_threadsafe`, which never re-raises a
coroutine's exception in this callback (the exception is captured in the
returned future), so the schedule is independent of handler outcomes. -/
def on_meshtastic_message (cfg : RelayConfig) (get_longname : String → Option String)
    (plugins : List Bool) (packet : RadioPacket) : List MEffect :=
  if truthyOpt packet.decoded_text then
    let text := packet.decoded_text.getD ""
    match packetChannel packet with
    | none => []
    | some channel =>
      if cfg.matrix_rooms.any (fun room => room.meshtastic_channel == channel) then
        let longname := truthyOr (get_longname packet.fromId) packet.fromId
        let formatted_message := "[" ++ longname ++ "/" ++ cfg.meshnet_name ++ "]: " ++ text
        plugins.map (fun _ => MEffect.pluginRadio formatted_message) ++
          (cfg.matrix_rooms.filter (fun room => room.meshtastic_channel == channel)).map
            (fun room => MEffect.matrixSend room.id
              ⟨"m.text", formatted_message, longname, cfg.meshnet_name⟩)
      else []
  else []

/-- The message-construction stage of `on_room_message`: the provenance
branch (remote-meshnet reformat, or `None` for the local-meshnet early
`return`) versus the display-name branch.  Returns the `full_message`
handed to the plugins and to `sendText`. -/
def roomMessageFormat (cfg : RelayConfig) (env : ChatEnv) (event : ChatEvent) : Option String :=
  let text0 := pyStrip event.body
  if truthyOpt event.meshtastic_longname ∧ truthyOpt event.meshtastic_meshnet then
    let longname := event.meshtastic_longname.getD ""
    let meshnet_name := event.meshtastic_meshnet.getD ""
    if meshnet_name ≠ cfg.meshnet_name then
      let full_display_name := longname ++ "/" ++ meshnet_name
      let pfxText := pySlice longname 3 ++ "/" ++ pySlice meshnet_name 4 ++ ": "
      let text1 := stripDisplayTag full_display_name text0
      let text2 := truncate_message text1 227
      some (pfxText ++ text2)
    else none
  else
    let full_display_name := truthyOr (env.displayname event.sender) event.sender
    let pfxText := pySlice full_display_name 5 ++ "[M]: "
    let text2 := truncate_message text0 227
    some (pfxText ++ text2)

/-- The short-form tag `on_room_message` prepends to what it sends to
radio: `longname[:3] ++ "/" ++ meshnet_name[:4] ++ ": "` in the
provenance branch, `full_display_name[:5] ++ "[M]: "` in the
display-name branch. -/
def shortTag (env : ChatEnv) (event : ChatEvent) : String :=
  if truthyOpt event.meshtastic_longname ∧ truthyOpt event.meshtastic_meshnet then
    pySlice (event.meshtastic_longname.getD "") 3 ++ "/" ++
      pySlice (event.meshtastic_meshnet.getD "") 4 ++ ": " 
  else
    pySlice (truthyOr (env.displayname event.sender) event.sender) 5 ++ "[M]: "

/-- The body `on_room_message` truncates: the stripped event body, with
the full-form `"[longname/meshnet]: "` tag removed first in the
provenance branch. -/
def strippedBody (event : ChatEvent) : String :=
  if truthyOpt event.meshtastic_longname ∧ truthyOpt event.meshtastic_meshnet then
    stripDisplayTag
      (event.meshtastic_longname.getD "" ++ "/" ++ event.meshtastic_meshnet.getD "")
      (pyStrip event.body)
  else
    pyStrip event.body

/-- Model of `on_room_message` from `src/main.py`, as the list of effects it
performs.  The structure mirrors the source: bot-sender gate, timestamp
gate, provenance branch (remote-meshnet reformat / local-meshnet early
return) versus display-name branch, plugin loop, then the
`broadcast_enabled`-gated `sendText` when the room is configured. -/
def on_room_message (cfg : RelayConfig) (env : ChatEnv) (roomId : String)
    (bot_start_time : Int) (event : ChatEvent) : List Effect :=
  if event.sender ≠ cfg.bot_user_id then
    if bot_start_time < event.server_timestamp then
      match roomMessageFormat cfg env event with
      | none => []
      | some full_message =>
        let room_config := cfg.matrix_rooms.find? (fun c => c.id == roomId)
        let d := dispatchChat env.plugins full_message
        if d.2 then d.1
        else
          d.1 ++
            (match room_config with
             | some rc =>
               if cfg.broadcast_enabled then
                 [Effect.radioSend full_message rc.meshtastic_channel]
               else []
             | none => [])
    else []
  else []

/-- The `sendText` calls among the effects of `on_room_message`. -/
def radioSends (effs : List Effect) : List (String × Nat) :=
  effs.filterMap (fun e => match e with
    | Effect.radioSend t ch => some (t, ch)
    | _ => none)

/-- How many plugin handlers `on_room_message` invoked. -/
def countPluginChat (effs : List Effect) : Nat :=
  (effs.filter (fun e => match e with
    | Effect.pluginChat _ => true
    | _ => false)).length

/-- The rooms `on_meshtastic_message` schedules chat sends to, in order. -/
def matrixSendRooms (effs : List MEffect) : List String :=
  effs.filterMap (fun e => match e with
    | MEffect.matrixSend r _ => some r
    | _ => none)

/-! ## Concrete scenarios

A configuration with one room `"!room1"` on mesh channel 0, local meshnet
`"MeshA"`, used by the end-to-end claims. -/

/-- One mapped room, broadcast enabled. -/
def cfgBroadcast : RelayConfig :=
  ⟨[⟨"!room1", 0⟩], "MeshA", true, "@bot:example.org"⟩

/-- Same configuration with `broadcast_enabled: false`. -/
def cfgNoBroadcast : RelayConfig :=
  ⟨[⟨"!room1", 0⟩], "MeshA", false, "@bot:example.org"⟩

/-- No plugins registered; display-name lookups fail over to the sender id. -/
def envNoPlugins : ChatEnv :=
  ⟨fun _ => none, []⟩

/-- Chat event relayed by a remote meshnet `MeshB` relay: provenance fields
set, body already carrying the full-form tag. -/
def evRemoteB : ChatEvent :=
  ⟨"@relay:remote.org", 1, "[Bob/MeshB]: yo", some "Bob", some "MeshB"⟩

/-- Remote-meshnet chat event whose body carries the full-form tag and a
227-character ASCII payload: the stripped body is exactly 227 bytes, so
the truncated body plus the short-form tag exceeds 227 bytes. -/
def evLong : ChatEvent :=
  ⟨"@relay:remote.org", 1, "[Bob/MeshB]: " ++ ⟨List.replicate 227 'a'⟩, some "Bob", some "MeshB"⟩

/-! ### Decoder correctness on prefixes of valid encodings -/

theorem char_ofNat_toNat (c : Char) : Char.ofNat c.toNat = c := by
  obtain ⟨⟨⟨⟨n, hn⟩⟩⟩, hv⟩ := c
  simp only [Char.ofNat, Char.toNat]
  rw [dif_pos hv]
  rfl

theorem char_valid_nat (c : Char) :
    c.toNat < 0xd800 ∨ (0xdfff < c.toNat ∧ c.toNat < 0x110000) :=
  c.valid

/-- Decoding a validly encoded character followed by anything yields that
character and continues on the remainder. -/
theorem utf8DecodeIgnoreAux_encode_cons (c : Char) (X : List Nat) :
    utf8DecodeIgnoreAux none (charUtf8 c ++ X) = c :: utf8DecodeIgnoreAux none X := by
  have hv := char_valid_nat c
  set v := c.toNat with hvdef
  have hlt : v < 0x110000 := by omega
  by_cases h1 : v < 0x80
  · simp only [charUtf8, ← hvdef, if_pos h1, List.cons_append, List.nil_append,
      utf8DecodeIgnoreAux, classifyLead, if_pos h1]
    rw [char_ofNat_toNat]
  · by_cases h2 : v < 0x800
    · have hb0 : ¬ (0xC0 + v / 64 < 0x80) := by omega
      have hb0' : ¬ (0xC0 + v / 64 < 0xC0) := by omega
      have hb0'' : 0xC0 + v / 64 < 0xE0 := by omega
      simp only [charUtf8, ← hvdef, if_neg h1, if_pos h2, List.cons_append, List.nil_append,
        utf8DecodeIgnoreAux, classifyLead, if_neg hb0, if_neg hb0', if_pos hb0'']
      have hc1 : 0x80 ≤ 0x80 + v % 64 ∧ 0x80 + v % 64 < 0xC0 := by omega
      simp only [utf8DecodeIgnoreAux, if_pos hc1]
      have hacc : (0xC0 + v / 64 - 0xC0) * 64 + (0x80 + v % 64 - 0x80) = v := by omega
      rw [hacc]
      have hval : 0x80 ≤ v ∧ v < 0x110000 ∧ ¬(0xD800 ≤ v ∧ v < 0xE000) := by omega
      simp [hval, hvdef, char_ofNat_toNat]
    · by_cases h3 : v < 0x10000
      · have hb0 : ¬ (0xE0 + v / 4096 < 0x80) := by omega
        have hb0' : ¬ (0xE0 + v / 4096 < 0xC0) := by omega
        have hb0'' : ¬ (0xE0 + v / 4096 < 0xE0) := by omega
        have hb0''' : 0xE0 + v / 4096 < 0xF0 := by omega
        simp only [charUtf8, ← hvdef, if_neg h1, if_neg h2, if_pos h3, List.cons_append,
          List.nil_append, utf8DecodeIgnoreAux, classifyLead, if_neg hb0, if_neg hb0',
          if_neg hb0'', if_pos hb0''']
        have hc1 : 0x80 ≤ 0x80 + v / 64 % 64 ∧ 0x80 + v / 64 % 64 < 0xC0 := by omega
        simp only [utf8DecodeIgnoreAux, if_pos hc1]
        have hne : ¬ ((2 : Nat) = 1) := by omega
        simp only [if_neg hne]
        have hc2 : 0x80 ≤ 0x80 + v % 64 ∧ 0x80 + v % 64 < 0xC0 := by omega
        simp only [utf8DecodeIgnoreAux, if_pos hc2]
        have hacc : ((0xE0 + v / 4096 - 0xE0) * 64 + (0x80 + v / 64 % 64 - 0x80)) * 64 +
            (0x80 + v % 64 - 0x80) = v := by omega
        rw [show (2 : Nat) - 1 = 1 from rfl, hacc]
        have hval : 0x800 ≤ v ∧ v < 0x110000 ∧ ¬(0xD800 ≤ v ∧ v < 0xE000) := by omega
        simp [hval, hvdef, char_ofNat_toNat]
      · have hb0 : ¬ (0xF0 + v / 262144 < 0x80) := by omega
        have hb0' : ¬ (0xF0 + v / 262144 < 0xC0) := by omega
        have hb0'' : ¬ (0xF0 + v / 262144 < 0xE0) := by omega
        have hb0''' : ¬ (0xF0 + v / 262144 < 0xF0) := by omega
        have hb04 : 0xF0 + v / 262144 < 0xF8 := by omega
        simp only [charUtf8, ← hvdef, if_neg h1, if_neg h2, if_neg h3, List.cons_append,
          List.nil_append, utf8DecodeIgnoreAux, classifyLead, if_neg hb0, if_neg hb0',
          if_neg hb0'', if_neg hb0''', if_pos hb04]
        have hc1 : 0x80 ≤ 0x80 + v / 4096 % 64 ∧ 0x80 + v / 4096 % 64 < 0xC0 := by omega
        simp only [utf8DecodeIgnoreAux, if_pos hc1]
        have hne : ¬ ((3 : Nat) = 1) := by omega
        simp only [if_neg hne]
        have hc2 : 0x80 ≤ 0x80 + v / 64 % 64 ∧ 0x80 + v / 64 % 64 < 0xC0 := by omega
        simp only [utf8DecodeIgnoreAux, if_pos hc2]
        rw [show (3 : Nat) - 1 = 2 from rfl]
        have hne2 : ¬ ((2 : Nat) = 1) := by omega
        simp only [if_neg hne2]
        have hc3 : 0x80 ≤ 0x80 + v % 64 ∧ 0x80 + v % 64 < 0xC0 := by omega
        simp only [utf8DecodeIgnoreAux, if_pos hc3]
        rw [show (2 : Nat) - 1 = 1 from rfl]
        have hacc : (((0xF0 + v / 262144 - 0xF0) * 64 + (0x80 + v / 4096 % 64 - 0x80)) * 64 +
            (0x80 + v / 64 % 64 - 0x80)) * 64 + (0x80 + v % 64 - 0x80) = v := by omega
        rw [hacc]
        have hval : 0x10000 ≤ v ∧ v < 0x110000 ∧ ¬(0xD800 ≤ v ∧ v < 0xE000) := by omega
        simp [hval, hvdef, char_ofNat_toNat]

/-- Decoding a strict prefix of one character's encoding yields nothing:
the truncated trailing sequence is discarded by the `"ignore"` handler. -/
theorem utf8DecodeIgnoreAux_take_incomplete (c : Char) (n : Nat)
    (h : n < (charUtf8 c).length) :
    utf8DecodeIgnoreAux none ((charUtf8 c).take n) = [] := by
  have hv := char_valid_nat c
  set v := c.toNat with hvdef
  by_cases h1 : v < 0x80
  · simp only [charUtf8, ← hvdef, if_pos h1, List.length_cons, List.length_nil] at h
    interval_cases n
    simp [utf8DecodeIgnoreAux]
  · by_cases h2 : v < 0x800
    · have hb0 : ¬ (0xC0 + v / 64 < 0x80) := by omega
      have hb0' : ¬ (0xC0 + v / 64 < 0xC0) := by omega
      have hb0'' : 0xC0 + v / 64 < 0xE0 := by omega
      simp only [charUtf8, ← hvdef, if_neg h1, if_pos h2] at h ⊢
      simp only [List.length_cons, List.length_nil] at h
      interval_cases n
      · simp [utf8DecodeIgnoreAux]
      · simp only [List.take_succ_cons, List.take_zero]
        simp [utf8DecodeIgnoreAux, classifyLead, if_neg hb0, if_neg hb0', if_pos hb0'']
    · by_cases h3 : v < 0x10000
      · have hb0 : ¬ (0xE0 + v / 4096 < 0x80) := by omega
        have hb0' : ¬ (0xE0 + v / 4096 < 0xC0) := by omega
        have hb0'' : ¬ (0xE0 + v / 4096 < 0xE0) := by omega
        have hb0''' : 0xE0 + v / 4096 < 0xF0 := by omega
        have hc1 : 0x80 ≤ 0x80 + v / 64 % 64 ∧ 0x80 + v / 64 % 64 < 0xC0 := by omega
        simp only [charUtf8, ← hvdef, if_neg h1, if_neg h2, if_pos h3] at h ⊢
        simp only [List.length_cons, List.length_nil] at h
        interval_cases n
        · simp [utf8DecodeIgnoreAux]
        · simp only [List.take_succ_cons, List.take_zero]
          simp [utf8DecodeIgnoreAux, classifyLead, if_neg hb0, if_neg hb0', if_neg hb0'',
            if_pos hb0''']
        · simp only [List.take_succ_cons, List.take_zero]
          simp only [utf8DecodeIgnoreAux, classifyLead, if_neg hb0, if_neg hb0', if_neg hb0'',
            if_pos hb0''']
          have hne : ¬ ((2 : Nat) = 1) := by omega
          simp [utf8DecodeIgnoreAux, if_pos hc1, if_neg hne]
          intro hcontra
          exact absurd hcontra (by omega)
      · have hb0 : ¬ (0xF0 + v / 262144 < 0x80) := by omega
        have hb0' : ¬ (0xF0 + v / 262144 < 0xC0) := by omega
        have hb0'' : ¬ (0xF0 + v / 262144 < 0xE0) := by omega
        have hb0''' : ¬ (0xF0 + v / 262144 < 0xF0) := by omega
        have hlt : v < 0x110000 := by omega
        have hb04 : 0xF0 + v / 262144 < 0xF8 := by omega
        have hc1 : 0x80 ≤ 0x80 + v / 4096 % 64 ∧ 0x80 + v / 4096 % 64 < 0xC0 := by omega
        have hc2 : 0x80 ≤ 0x80 + v / 64 % 64 ∧ 0x80 + v / 64 % 64 < 0xC0 := by omega
        simp only [charUtf8, ← hvdef, if_neg h1, if_neg h2, if_neg h3] at h ⊢
        simp only [List.length_cons, List.length_nil] at h
        interval_cases n
        · simp [utf8DecodeIgnoreAux]
        · simp only [List.take_succ_cons, List.take_zero]
          simp [utf8DecodeIgnoreAux, classifyLead, if_neg hb0, if_neg hb0', if_neg hb0'',
            if_neg hb0''', if_pos hb04]
        · simp only [List.take_succ_cons, List.take_zero]
          simp only [utf8DecodeIgnoreAux, classifyLead, if_neg hb0, if_neg hb0', if_neg hb0'',
            if_neg hb0''', if_pos hb04]
          have hne : ¬ ((3 : Nat) = 1) := by omega
          simp [utf8DecodeIgnoreAux, if_pos hc1, if_neg hne]
          intro hcontra
          exact absurd hcontra (by omega)
        · simp only [List.take_succ_cons, List.take_zero]
          simp only [utf8DecodeIgnoreAux, classifyLead, if_neg hb0, if_neg hb0', if_neg hb0'',
            if_neg hb0''', if_pos hb04]
          have hne : ¬ ((3 : Nat) = 1) := by omega
          simp only [if_pos hc1, if_neg hne]
          have hne2 : ¬ ((3 : Nat) - 1 = 1) := by omega
          simp [utf8DecodeIgnoreAux, if_pos hc2, if_neg hne2]
          intro hcontra
          exact absurd hcontra (by omega)

/-- Truncating the UTF-8 encoding to `n` bytes and decoding with `"ignore"`
keeps exactly the characters that fit. -/
theorem utf8DecodeIgnore_take_encode (s : List Char) :
    ∀ n, utf8DecodeIgnore ((utf8Encode s).take n) = takeFit s n := by
  induction s with
  | nil =>
    intro n
    simp [utf8Encode, utf8DecodeIgnore, utf8DecodeIgnoreAux, takeFit]
  | cons c cs ih =>
    intro n
    have henc : utf8Encode (c :: cs) = charUtf8 c ++ utf8Encode cs := by
      simp [utf8Encode]
    rw [henc, List.take_append_eq_append_take]
    by_cases hfit : (charUtf8 c).length ≤ n
    · rw [List.take_of_length_le hfit]
      unfold utf8DecodeIgnore
      rw [utf8DecodeIgnoreAux_encode_cons]
      simp only [takeFit, if_pos hfit]
      exact congrArg _ (ih _)
    · push_neg at hfit
      have hz : n - (charUtf8 c).length = 0 := by omega
      rw [hz, List.take_zero, List.append_nil]
      unfold utf8DecodeIgnore
      rw [utf8DecodeIgnoreAux_take_incomplete c n hfit]
      simp only [takeFit, if_neg (by omega : ¬ (charUtf8 c).length ≤ n)]

theorem takeFit_utf8Len_le (s : List Char) : ∀ n, (utf8Encode (takeFit s n)).length ≤ n := by
  induction s with
  | nil => intro n; simp [takeFit, utf8Encode]
  | cons c cs ih =>
    intro n
    by_cases hfit : (charUtf8 c).length ≤ n
    · simp only [takeFit, if_pos hfit, utf8Encode, List.map_cons, List.flatten_cons,
        List.length_append]
      have := ih (n - (charUtf8 c).length)
      simp only [utf8Encode] at this
      omega
    · simp only [takeFit, if_neg hfit, utf8Encode, List.map_nil, List.flatten_nil,
        List.length_nil]
      omega

theorem takeFit_append_eq (s : List Char) : ∀ n, ∃ t, s = takeFit s n ++ t := by
  induction s with
  | nil => intro n; exact ⟨[], rfl⟩
  | cons c cs ih =>
    intro n
    by_cases hfit : (charUtf8 c).length ≤ n
    · obtain ⟨t, ht⟩ := ih (n - (charUtf8 c).length)
      exact ⟨t, by simp only [takeFit, if_pos hfit, List.cons_append]; rw [← ht]⟩
    · exact ⟨c :: cs, by simp [takeFit, if_neg hfit]⟩

/-- C4 (confirmed).  For every input string and every byte budget
(227 by default in the source), `truncate_message` returns a string whose
UTF-8 encoding is at most `max_bytes` bytes long, and which is a character
prefix of the input — so truncation never splits a multi-byte character
and the result always decodes as valid text. -/
theorem c4_truncate_safe (text : String) (max_bytes : Nat) :
    utf8Len (truncate_message text max_bytes) ≤ max_bytes ∧
    ∃ t, text.data = (truncate_message text max_bytes).data ++ t := by
  have hdata : (truncate_message text max_bytes).data = takeFit text.data max_bytes := by
    show (utf8DecodeIgnore ((utf8Encode text.data).take max_bytes)) = _
    exact utf8DecodeIgnore_take_encode text.data max_bytes
  constructor
  · show (utf8Encode (truncate_message text max_bytes).data).length ≤ max_bytes
    rw [hdata]
    exact takeFit_utf8Len_le text.data max_bytes
  · rw [hdata]
    exact takeFit_append_eq text.data max_bytes

/-! ## C1 — loop prevention on the local meshnet name -/

/-- C1 (corrected), counterexample.  A chat event whose
`meshtastic_meshnet` equals the local meshnet name `"MeshA"` but whose
`meshtastic_longname` is absent fails the `if longname and meshnet_name`
gate, falls into the display-name branch, and *is* sent to the radio
network — the claim's "regardless of the other fields" fails. -/
theorem c1_counterexample :
    (ChatEvent.meshtastic_meshnet ⟨"@user:example.org", 1, "hi", none, some "MeshA"⟩
      = some cfgBroadcast.meshnet_name)
    ∧ on_room_message cfgBroadcast ⟨fun _ => some "Dave", []⟩ "!room1" 0
        ⟨"@user:example.org", 1, "hi", none, some "MeshA"⟩
      = [Effect.radioSend "Dave[M]: hi" 0] := by
  decide

/-- C1 (corrected), amended claim.  For every chat event whose
`meshtastic_longname` is present and non-empty and whose
`meshtastic_meshnet` equals the (non-empty) local meshnet name,
`on_room_message` performs no effect at all — in particular it never
sends to the radio network — regardless of the remaining fields. -/
theorem c1_local_meshnet_drop (cfg : RelayConfig) (env : ChatEnv) (roomId : String)
    (bot_start_time : Int) (event : ChatEvent)
    (hl : truthyOpt event.meshtastic_longname = true)
    (hm : event.meshtastic_meshnet = some cfg.meshnet_name)
    (hn : cfg.meshnet_name ≠ "") :
    on_room_message cfg env roomId bot_start_time event = [] := by
  have hmt : truthyOpt event.meshtastic_meshnet = true := by
    rw [hm]
    simp [truthyOpt]
    exact hn
  have hmt' : truthyOpt (some cfg.meshnet_name) = true := hm ▸ hmt
  have hfmt : roomMessageFormat cfg env event = none := by
    unfold roomMessageFormat
    simp [hm, hl, hmt']
  unfold on_room_message
  split
  · split
    · rw [hfmt]
    · rfl
  · rfl

/-- Witness for `c1_local_meshnet_drop` at a concrete event. -/
theorem c1_witness :
    truthyOpt (some "Alice") = true
    ∧ some "MeshA" = some cfgBroadcast.meshnet_name
    ∧ cfgBroadcast.meshnet_name ≠ ""
    ∧ on_room_message cfgBroadcast envNoPlugins "!room1" 0
        ⟨"@user:example.org", 1, "hi", some "Alice", some "MeshA"⟩ = [] :=
  ⟨by decide, by decide, by decide,
    c1_local_meshnet_drop cfgBroadcast envNoPlugins "!room1" 0
      ⟨"@user:example.org", 1, "hi", some "Alice", some "MeshA"⟩
      (by decide) (by decide) (by decide)⟩

/-! ## C2 — end-to-end remote-meshnet relay -/

/-- C2 (corrected), counterexample.  The remote-meshnet event
`"[Bob/MeshB]: yo"` is relayed with the short-form tag built from
`longname[:3]` and `meshnet_name[:4]`, i.e. `"Bob/Mesh: yo"` — not the
claim's `"Bob/MeshB: yo"`. -/
theorem c2_counterexample :
    radioSends (on_room_message cfgBroadcast envNoPlugins "!room1" 0 evRemoteB)
      = [("Bob/Mesh: yo", 0)]
    ∧ ("Bob/Mesh: yo" : String) ≠ "Bob/MeshB: yo" := by
  decide

/-- C2 (corrected), amended claim.  For the chat event from remote
meshnet `"MeshB"` with body `"[Bob/MeshB]: yo"`, arriving after process
start from a non-bot sender in the mapped room: with broadcast enabled,
`on_room_message` sends exactly `"Bob/Mesh: yo"` (original full-form tag
stripped; short-form tag `longname[:3] ++ "/" ++ meshnet[:4]` applied,
which truncates `"MeshB"` to `"Mesh"`) on channel 0; with broadcast
disabled, nothing is sent to the radio network. -/
theorem c2_remote_relay :
    radioSends (on_room_message cfgBroadcast envNoPlugins "!room1" 0 evRemoteB)
      = [("Bob/Mesh: yo", 0)]
    ∧ radioSends (on_room_message cfgNoBroadcast envNoPlugins "!room1" 0 evRemoteB) = [] := by
  decide

/-! ## C5 — backlog events are dropped -/

/-- C5 (confirmed).  A chat event whose `server_timestamp` is at or
before the process start time produces no effect at all: no plugin
dispatch and no radio send. -/
theorem c5_backlog_drop (cfg : RelayConfig) (env : ChatEnv) (roomId : String)
    (bot_start_time : Int) (event : ChatEvent)
    (h : event.server_timestamp ≤ bot_start_time) :
    on_room_message cfg env roomId bot_start_time event = [] := by
  unfold on_room_message
  split
  · split
    · omega
    · rfl
  · rfl

/-- Witness for `c5_backlog_drop` at a concrete event. -/
theorem c5_witness :
    (ChatEvent.server_timestamp ⟨"@user:example.org", 3, "old", none, none⟩ : Int) ≤ 5
    ∧ on_room_message cfgBroadcast envNoPlugins "!room1" 5
        ⟨"@user:example.org", 3, "old", none, none⟩ = [] :=
  ⟨by decide,
    c5_backlog_drop cfgBroadcast envNoPlugins "!room1" 5
      ⟨"@user:example.org", 3, "old", none, none⟩ (by decide)⟩

/-! ## C7 — end-to-end radio-to-chat relay -/

/-- C7 (confirmed).  The radio packet `{fromId: "!abcd", channel: 0,
text: "hi"}`, with channel 0 mapped to `"!room1"`, the longname cache
resolving `"!abcd"` to `"Alice"` and local meshnet `"MeshA"`, schedules
exactly one chat send: to `"!room1"`, body `"[Alice/MeshA]: hi"`, with
provenance fields `meshtastic_longname = "Alice"` and
`meshtastic_meshnet = "MeshA"`. -/
theorem c7_end_to_end :
    on_meshtastic_message cfgBroadcast
        (fun s => if s == "!abcd" then some "Alice" else none) []
        ⟨"!abcd", some 0, some "hi", "TEXT_MESSAGE_APP"⟩
      = [MEffect.matrixSend "!room1" ⟨"m.text", "[Alice/MeshA]: hi", "Alice", "MeshA"⟩] := by
  decide

/-! ## Shared corollaries about truncation -/

theorem truncate_message_data (text : String) (n : Nat) :
    (truncate_message text n).data = takeFit text.data n :=
  utf8DecodeIgnore_take_encode text.data n

theorem truncate_message_utf8Len_le (text : String) (n : Nat) :
    utf8Len (truncate_message text n) ≤ n := by
  show (utf8Encode (truncate_message text n).data).length ≤ n
  rw [truncate_message_data]
  exact takeFit_utf8Len_le text.data n

theorem utf8Len_append (s t : String) : utf8Len (s ++ t) = utf8Len s + utf8Len t := by
  simp [utf8Len, utf8Encode, String.data_append]

/-! ## C8 — non-text radio packets are dropped -/

/-- C8 (confirmed).  A radio packet whose decoded payload carries no text
(the shape of telemetry, position, admin and unrecognized application
payloads) is dropped by `on_meshtastic_message` without any plugin
dispatch or chat send. -/
theorem c8_nontext_drop (cfg : RelayConfig) (get_longname : String → Option String)
    (plugins : List Bool) (packet : RadioPacket)
    (h : packet.decoded_text = none) :
    on_meshtastic_message cfg get_longname plugins packet = [] := by
  unfold on_meshtastic_message
  rw [h]
  simp [truthyOpt]

/-- Witness for `c8_nontext_drop` on a telemetry packet. -/
theorem c8_witness :
    RadioPacket.decoded_text ⟨"!node", some 0, none, "TELEMETRY_APP"⟩ = none
    ∧ on_meshtastic_message cfgBroadcast (fun _ => none) [false]
        ⟨"!node", some 0, none, "TELEMETRY_APP"⟩ = [] :=
  ⟨rfl, c8_nontext_drop cfgBroadcast (fun _ => none) [false]
    ⟨"!node", some 0, none, "TELEMETRY_APP"⟩ rfl⟩

/-! ### Shared facts about effect extraction -/

theorem matrixSendRooms_append (xs ys : List MEffect) :
    matrixSendRooms (xs ++ ys) = matrixSendRooms xs ++ matrixSendRooms ys := by
  simp [matrixSendRooms]

theorem matrixSendRooms_pluginRadio (msg : String) (flags : List Bool) :
    matrixSendRooms (flags.map (fun _ => MEffect.pluginRadio msg)) = [] := by
  induction flags with
  | nil => rfl
  | cons b t ih => simp [matrixSendRooms, List.filterMap_cons, ih]

theorem matrixSendRooms_matrixSend (f : RoomMapping → String) (g : RoomMapping → MatrixContent)
    (l : List RoomMapping) :
    matrixSendRooms (l.map (fun room => MEffect.matrixSend (f room) (g room))) = l.map f := by
  induction l with
  | nil => rfl
  | cons a t ih =>
    simp only [matrixSendRooms, List.map_cons, List.filterMap_cons] at ih ⊢
    rw [ih]

/-! ## C6 — channel-to-room routing -/

/-- C6 (confirmed).  For a text packet whose channel resolves to `ch`: if
no configured mapping uses channel `ch` the callback schedules nothing at
all, and in general the rooms it sends to are exactly the configured
rooms whose `meshtastic_channel` equals `ch`, in configuration order. -/
theorem c6_channel_routing (cfg : RelayConfig) (get_longname : String → Option String)
    (plugins : List Bool) (packet : RadioPacket) (ch : Nat)
    (ht : truthyOpt packet.decoded_text = true)
    (hch : packetChannel packet = some ch) :
    (cfg.matrix_rooms.all (fun room => !(room.meshtastic_channel == ch)) = true →
      on_meshtastic_message cfg get_longname plugins packet = [])
    ∧ matrixSendRooms (on_meshtastic_message cfg get_longname plugins packet)
        = (cfg.matrix_rooms.filter (fun room => room.meshtastic_channel == ch)).map
            (fun room => room.id) := by
  unfold on_meshtastic_message
  rw [ht, if_pos rfl, hch]
  dsimp only
  by_cases hmap : cfg.matrix_rooms.any (fun room => room.meshtastic_channel == ch) = true
  · rw [if_pos hmap]
    constructor
    · intro hall
      exfalso
      rw [List.all_eq_true] at hall
      rw [List.any_eq_true] at hmap
      obtain ⟨room, hmem, hroom⟩ := hmap
      have := hall room hmem
      simp [hroom] at this
    · rw [matrixSendRooms_append, matrixSendRooms_pluginRadio, matrixSendRooms_matrixSend]
      simp
  · rw [if_neg hmap]
    constructor
    · intro _
      rfl
    · have hnil : cfg.matrix_rooms.filter (fun room => room.meshtastic_channel == ch) = [] := by
        rw [List.filter_eq_nil_iff]
        intro room hmem
        simp only [Bool.not_eq_true] at hmap
        rw [List.any_eq_false] at hmap
        simpa using hmap room hmem
      rw [hnil]
      rfl

/-- Witness for `c6_channel_routing`: a packet on unmapped channel 5
against the one-room configuration produces no effect at all. -/
theorem c6_witness :
    truthyOpt (RadioPacket.decoded_text ⟨"!n", some 5, some "hi", "TEXT_MESSAGE_APP"⟩) = true
    ∧ packetChannel ⟨"!n", some 5, some "hi", "TEXT_MESSAGE_APP"⟩ = some 5
    ∧ ((cfgBroadcast.matrix_rooms.all (fun room => !(room.meshtastic_channel == 5)) = true →
          on_meshtastic_message cfgBroadcast (fun _ => none) []
            ⟨"!n", some 5, some "hi", "TEXT_MESSAGE_APP"⟩ = [])
        ∧ matrixSendRooms (on_meshtastic_message cfgBroadcast (fun _ => none) []
              ⟨"!n", some 5, some "hi", "TEXT_MESSAGE_APP"⟩)
            = (cfgBroadcast.matrix_rooms.filter (fun room => room.meshtastic_channel == 5)).map
                (fun room => room.id)) :=
  ⟨by decide, by decide,
    c6_channel_routing cfgBroadcast (fun _ => none) []
      ⟨"!n", some 5, some "hi", "TEXT_MESSAGE_APP"⟩ 5 (by decide) (by decide)⟩

/-! ## C9 — display-tag stripping -/

theorem matchLit_append (p rest : List Char) : matchLit p (p ++ rest) = some rest := by
  induction p with
  | nil => rfl
  | cons a t ih => simp [matchLit, ih]

theorem matchLit_eq_some (p : List Char) :
    ∀ s r, matchLit p s = some r → s = p ++ r := by
  induction p with
  | nil =>
    intro s r h
    simp only [matchLit, Option.some.injEq] at h
    simp [h]
  | cons a t ih =>
    intro s r h
    cases s with
    | nil => simp [matchLit] at h
    | cons b bs =>
      simp only [matchLit] at h
      by_cases hab : a = b
      · rw [if_pos hab] at h
        have := ih bs r h
        simp [hab, this]
      · rw [if_neg hab] at h
        exact absurd h (by simp)

/-- C9 (confirmed).  The anchored-pattern stripping of `on_room_message`
(for tags free of regex metacharacters, which is what the interpolated,
unescaped pattern of the source treats literally): it maps
`"[Alice/MeshA]: hello"` with tag `Alice/MeshA` to `"hello"`, removes
exactly one leading `"[tag]: "` occurrence when the text starts with it,
and leaves any text that does not start with the bracketed tag
unchanged. -/
theorem c9_strip_tag :
    stripDisplayTag "Alice/MeshA" "[Alice/MeshA]: hello" = "hello"
    ∧ (∀ tag text r, regexLiteral tag = true →
        text.data = ("[" ++ tag ++ "]: ").data ++ r →
        stripDisplayTag tag text = ⟨r⟩)
    ∧ (∀ tag text, regexLiteral tag = true →
        (∀ r, text.data ≠ ("[" ++ tag ++ "]: ").data ++ r) →
        stripDisplayTag tag text = text) := by
  refine ⟨by decide, ?_, ?_⟩
  · intro tag text r _ hdata
    unfold stripDisplayTag
    rw [hdata, matchLit_append]
  · intro tag text _ hne
    unfold stripDisplayTag
    rcases hm : matchLit ("[" ++ tag ++ "]: ").data text.data with _ | rest
    · rfl
    · exact absurd (matchLit_eq_some _ _ _ hm) (hne rest)

/-- Witness for `c9_strip_tag` parts 2 and 3 at concrete inputs. -/
theorem c9_witness :
    regexLiteral "Bob/MeshB" = true
    ∧ stripDisplayTag "Bob/MeshB" "[Bob/MeshB]: yo" = "yo"
    ∧ stripDisplayTag "Bob/MeshB" "plain text" = "plain text" :=
  ⟨by decide,
    c9_strip_tag.2.1 "Bob/MeshB" "[Bob/MeshB]: yo" "yo".data (by decide) (by decide),
    c9_strip_tag.2.2 "Bob/MeshB" "plain text" (by decide)
      (by
        intro r hr
        have hlen := congrArg List.length hr
        rw [List.length_append] at hlen
        have h1 : ("plain text" : String).data.length = 10 := by decide
        have h2 : (("[" ++ "Bob/MeshB" ++ "]: " : String)).data.length = 13 := by decide
        rw [h1, h2] at hlen
        omega)⟩

/-! ## C3 — plugin failure isolation -/

theorem dispatchChat_raise (pre post : List Bool) (msg : String)
    (hpre : ∀ b ∈ pre, b = false) :
    dispatchChat (pre ++ true :: post) msg
      = (List.replicate (pre.length + 1) (Effect.pluginChat msg), true) := by
  induction pre with
  | nil => simp [dispatchChat]
  | cons b t ih =>
    have hb : b = false := hpre b (by simp)
    have ht' : ∀ x ∈ t, x = false := fun x hx => hpre x (by simp [hx])
    subst hb
    simp only [List.cons_append, dispatchChat, Bool.false_eq_true, if_false, List.append_eq]
    rw [ih ht']
    simp [List.replicate_succ]

theorem radioSends_pluginChat_replicate (n : Nat) (msg : String) :
    radioSends (List.replicate n (Effect.pluginChat msg)) = [] := by
  unfold radioSends
  induction n with
  | zero => rfl
  | succ k ih =>
    rw [List.replicate_succ, List.filterMap_cons]
    exact ih

theorem countPluginChat_replicate (n : Nat) (msg : String) :
    countPluginChat (List.replicate n (Effect.pluginChat msg)) = n := by
  unfold countPluginChat
  induction n with
  | zero => rfl
  | succ k ih =>
    rw [List.replicate_succ, List.filter_cons]
    simp only [if_true]
    rw [List.length_cons, ih]

/-- C3 (corrected), counterexample.  With two registered plugins, the
first of which raises, `on_room_message` invokes only the first handler
and performs no radio send — even though the room is mapped and broadcast
is enabled — because the plugin loop awaits each handler with no
exception handling. -/
theorem c3_counterexample :
    cfgBroadcast.broadcast_enabled = true
    ∧ on_room_message cfgBroadcast ⟨fun _ => some "Carol", [true, false]⟩ "!room1" 0
        ⟨"@user:example.org", 1, "hello", none, none⟩
      = [Effect.pluginChat "Carol[M]: hello"] := by
  decide

/-- C3 (corrected), amended claim.  In the radio→chat direction the
plugin handlers are only scheduled (`run_coroutine_threadsafe` captures a
coroutine's exception in its future), so the callback's effects do not
depend on handler outcomes at all.  In the chat→radio direction a raising
handler aborts the rest of the pipeline: no radio send happens and no
handler after the first raising one is invoked. -/
theorem c3_plugin_isolation :
    (∀ (cfg : RelayConfig) (get_longname : String → Option String) (flags flags' : List Bool)
        (packet : RadioPacket), flags.length = flags'.length →
        on_meshtastic_message cfg get_longname flags packet
          = on_meshtastic_message cfg get_longname flags' packet)
    ∧ (∀ (cfg : RelayConfig) (dn : String → Option String) (pre post : List Bool)
        (roomId : String) (bot_start_time : Int) (event : ChatEvent),
        (∀ b ∈ pre, b = false) →
        radioSends (on_room_message cfg ⟨dn, pre ++ true :: post⟩ roomId bot_start_time event)
            = []
        ∧ countPluginChat
              (on_room_message cfg ⟨dn, pre ++ true :: post⟩ roomId bot_start_time event)
            ≤ pre.length + 1) := by
  constructor
  · intro cfg get_longname flags flags' packet hlen
    unfold on_meshtastic_message
    simp only [List.map_const', hlen]
  · intro cfg dn pre post roomId bot_start_time event hpre
    unfold on_room_message
    split
    · split
      · rcases hfm : roomMessageFormat cfg ⟨dn, pre ++ true :: post⟩ event with _ | fm
        · simp [radioSends, countPluginChat]
        · dsimp only
          rw [dispatchChat_raise pre post _ hpre]
          simp [radioSends_pluginChat_replicate, countPluginChat_replicate]
      · simp [radioSends, countPluginChat]
    · simp [radioSends, countPluginChat]

/-- Witness for `c3_plugin_isolation` at concrete inputs: the radio-side
schedule is unchanged when the only plugin raises, and a raising first
plugin on the chat side yields no send and at most one handler call. -/
theorem c3_witness :
    ([true] : List Bool).length = ([false] : List Bool).length
    ∧ on_meshtastic_message cfgBroadcast (fun _ => none) [true]
        ⟨"!n", some 0, some "x", "TEXT_MESSAGE_APP"⟩
      = on_meshtastic_message cfgBroadcast (fun _ => none) [false]
        ⟨"!n", some 0, some "x", "TEXT_MESSAGE_APP"⟩
    ∧ (radioSends (on_room_message cfgBroadcast ⟨fun _ => some "Carol", [] ++ true :: [false]⟩
          "!room1" 0 ⟨"@user:example.org", 1, "hello", none, none⟩) = []
        ∧ countPluginChat (on_room_message cfgBroadcast ⟨fun _ => some "Carol", [] ++ true :: [false]⟩
            "!room1" 0 ⟨"@user:example.org", 1, "hello", none, none⟩)
          ≤ ([] : List Bool).length + 1) :=
  ⟨rfl,
    c3_plugin_isolation.1 cfgBroadcast (fun _ => none) [true] [false]
      ⟨"!n", some 0, some "x", "TEXT_MESSAGE_APP"⟩ rfl,
    c3_plugin_isolation.2 cfgBroadcast (fun _ => some "Carol") [] [false] "!room1" 0
      ⟨"@user:example.org", 1, "hello", none, none⟩ (by simp)⟩

/-! ## C10 — truncation happens before the tag is prepended -/

/-- Whatever `roomMessageFormat` produces is exactly the short-form tag
of the event followed by the 227-byte truncation of its stripped body. -/
theorem roomMessageFormat_eq (cfg : RelayConfig) (env : ChatEnv) (event : ChatEvent)
    (fm : String) (h : roomMessageFormat cfg env event = some fm) :
    fm = shortTag env event ++ truncate_message (strippedBody event) 227 := by
  unfold roomMessageFormat at h
  dsimp only at h
  unfold shortTag strippedBody
  split at h
  · rename_i hcond
    rw [if_pos hcond, if_pos hcond]
    split at h
    · exact (Option.some.inj h).symm
    · exact absurd h (by simp)
  · rename_i hcond
    rw [if_neg hcond, if_neg hcond]
    exact (Option.some.inj h).symm

/-- Every effect the chat plugin loop emits is a handler invocation with
the loop's message. -/
theorem dispatchChat_mem (flags : List Bool) (msg : String) (e : Effect)
    (h : e ∈ (dispatchChat flags msg).1) : e = Effect.pluginChat msg := by
  induction flags with
  | nil => simp [dispatchChat] at h
  | cons b t ih =>
    by_cases hb : b = true
    · subst hb
      simp [dispatchChat] at h
      simp [h]
    · have hb' : b = false := by cases b <;> simp_all
      subst hb'
      simp only [dispatchChat, Bool.false_eq_true, if_false] at h
      rcases List.mem_cons.mp h with h' | h'
      · simp [h']
      · exact ih h'

set_option maxRecDepth 10000 in
/-- C10 (confirmed).  Every text handed to `sendText` by
`on_room_message` equals the event's short-form tag followed by the
227-byte truncation of its stripped body — truncation runs on the body
before the tag is prepended — so the sent byte length is bounded only by
the tag's length plus 227, and there is an input whose sent text exceeds
227 UTF-8 bytes. -/
theorem c10_truncation_order :
    (∀ (cfg : RelayConfig) (env : ChatEnv) (roomId : String) (bot_start_time : Int)
        (event : ChatEvent) (s : String) (ch : Nat),
        Effect.radioSend s ch ∈ on_room_message cfg env roomId bot_start_time event →
        s = shortTag env event ++ truncate_message (strippedBody event) 227
        ∧ utf8Len s ≤ utf8Len (shortTag env event) + 227)
    ∧ 227 < utf8Len ("Bob/Mesh: " ++ ⟨List.replicate 227 'a'⟩)
    ∧ Effect.radioSend ("Bob/Mesh: " ++ ⟨List.replicate 227 'a'⟩) 0
        ∈ on_room_message cfgBroadcast envNoPlugins "!room1" 0 evLong := by
  refine ⟨?_, by decide, by decide⟩
  intro cfg env roomId bot_start_time event s ch hmem
  unfold on_room_message at hmem
  split at hmem
  · split at hmem
    · rcases hfm : roomMessageFormat cfg env event with _ | fm
      · rw [hfm] at hmem
        simp at hmem
      · rw [hfm] at hmem
        dsimp only at hmem
        have hshape := roomMessageFormat_eq cfg env event fm hfm
        split at hmem
        · exact absurd (dispatchChat_mem _ _ _ hmem) (by simp)
        · rw [List.mem_append] at hmem
          rcases hmem with hmem | hmem
          · exact absurd (dispatchChat_mem _ _ _ hmem) (by simp)
          · split at hmem
            · split at hmem
              · rw [List.mem_singleton] at hmem
                rw [Effect.radioSend.injEq] at hmem
                obtain ⟨hs, _⟩ := hmem
                refine ⟨by rw [hs, hshape], ?_⟩
                rw [hs, hshape, utf8Len_append]
                have := truncate_message_utf8Len_le (strippedBody event) 227
                omega
              · simp at hmem
            · simp at hmem
    · simp at hmem
  · simp at hmem

set_option maxRecDepth 10000 in
/-- Witness for `c10_truncation_order` part 1 at the concrete oversized send. -/
theorem c10_witness :
    Effect.radioSend ("Bob/Mesh: " ++ ⟨List.replicate 227 'a'⟩) 0
      ∈ on_room_message cfgBroadcast envNoPlugins "!room1" 0 evLong
    ∧ ("Bob/Mesh: " ++ ⟨List.replicate 227 'a'⟩ : String)
          = shortTag envNoPlugins evLong ++ truncate_message (strippedBody evLong) 227
      ∧ utf8Len ("Bob/Mesh: " ++ ⟨List.replicate 227 'a'⟩ : String)
          ≤ utf8Len (shortTag envNoPlugins evLong) + 227 :=
  ⟨by decide,
    c10_truncation_order.1 cfgBroadcast envNoPlugins "!room1" 0 evLong _ 0 (by decide)⟩
